import Mathlib

/-!
Shallow embedding of `reverb/cc/table_extensions/base.cc`
(class `PriorityTableExtensionBase`).

The C++ class holds a single field `Table* table_` (the back-reference to
the table the extension is bound to, null when unbound) plus the subclass
state.  We model:

* a `Table` object as an address (pointer identity) together with its
  `name()`; `Table*` becomes `Option Table`, `none` standing for `nullptr`;
* `PriorityTableItem` as an opaque record with key and priority;
* the subclass part of the object as an abstract state `σ`, and the five
  virtual `ApplyOn*` methods as a record `Hooks σ` of functions on `σ`
  (the base-class bodies, lines 65-73, are the no-op record
  `defaultHooks`);
* `absl::Mutex*` as an opaque lock-proof value;
* aborting (`REVERB_CHECK_EQ` failure) and undefined behaviour (a null
  dereference) as `Option.none` results: a method that can abort or crash
  returns `Option _`, and `none` means the call never returns normally.
-/

/-- One table object: its address (pointer identity) and its `name()`. -/
structure Table where
  addr : Nat
  name : String
deriving DecidableEq, Repr

/-- One `PriorityTableItem`: an opaque record carrying a key and a priority. -/
structure PriorityTableItem where
  key : Nat
  priority : Int
deriving DecidableEq, Repr

/-- An `absl::Mutex*` lock-proof argument.  The dispatch methods receive it
but never inspect it. -/
structure AbslMutex where
  addr : Nat
deriving DecidableEq, Repr

/-- The state of a `PriorityTableExtensionBase` object: the `Table* table_`
back-reference (`none` = `nullptr`) plus the subclass state `σ`. -/
structure ExtensionState (σ : Type) where
  table_ : Option Table
  sub : σ
deriving DecidableEq, Repr

/-- The overridable virtual methods `ApplyOnDelete` / `ApplyOnInsert` /
`ApplyOnReset` / `ApplyOnUpdate` / `ApplyOnSample`, acting on the subclass
state `σ`. -/
structure Hooks (σ : Type) where
  applyOnDelete : PriorityTableItem → σ → σ
  applyOnInsert : PriorityTableItem → σ → σ
  applyOnReset : σ → σ
  applyOnUpdate : PriorityTableItem → σ → σ
  applyOnSample : PriorityTableItem → σ → σ

/-- The base-class bodies of the `ApplyOn*` methods (base.cc lines 65-73):
every body is empty, i.e. the identity on the subclass state. -/
def defaultHooks (σ : Type) : Hooks σ where
  applyOnDelete := fun _ s => s
  applyOnInsert := fun _ s => s
  applyOnReset := fun s => s
  applyOnUpdate := fun _ s => s
  applyOnSample := fun _ s => s

/-- A `tensorflow::Status` as returned by `RegisterTable`: `OK` or a
`FailedPrecondition` error carrying its message. -/
inductive Status where
  | ok : Status
  | failedPrecondition (msg : String) : Status
deriving DecidableEq, Repr

/-- The error message built at base.cc lines 27-30.  It concatenates the
argument pointer, the argument table's name, the bound pointer `table_`,
and then - exactly as the source does - `table->name()` a second time
(line 30 reads `table->name()`, not `table_->name()`). -/
def registerErrorMsg (table : Table) (bound : Table) : String :=
  "Attempting to registering a table " ++ toString table.addr ++ " (name: " ++
    table.name ++ ") with extension that has already been " ++
    "registered with: " ++ toString bound.addr ++ " (name: " ++ table.name ++ ")"

/-- `PriorityTableExtensionBase::RegisterTable` (base.cc lines 25-34).

If `table_` is non-null the method builds a `FailedPrecondition` status;
building the message dereferences the argument `table` twice, so if the
argument is `nullptr` in that branch the call is undefined behaviour,
modelled as `none`.  Otherwise the method stores the argument into
`table_` (without any null check) and returns `OK`.  The outer `Option`
is `none` exactly on the undefined-behaviour path. -/
def RegisterTable (σ : Type) (table : Option Table)
    (e : ExtensionState σ) : Option (Status × ExtensionState σ) :=
  match e.table_ with
  | some bound =>
    match table with
    | some t => some (Status.failedPrecondition (registerErrorMsg t bound), e)
    | none => none
  | none => some (Status.ok, { e with table_ := table })

/-- `PriorityTableExtensionBase::UnregisterTable` (base.cc lines 36-41).

`REVERB_CHECK_EQ(table, table_)` aborts the process when the argument
pointer differs from `table_`; we model the abort as `none`.  When the
pointers agree the method clears `table_` and returns. -/
def UnregisterTable (σ : Type) (mu : AbslMutex) (table : Option Table)
    (e : ExtensionState σ) : Option (ExtensionState σ) :=
  if table = e.table_ then some { e with table_ := none } else none

/-- `PriorityTableExtensionBase::OnDelete` (base.cc lines 43-46):
calls `ApplyOnDelete(item)`. -/
def OnDelete (σ : Type) (h : Hooks σ) (mu : AbslMutex)
    (item : PriorityTableItem) (e : ExtensionState σ) : ExtensionState σ :=
  { e with sub := h.applyOnDelete item e.sub }

/-- `PriorityTableExtensionBase::OnInsert` (base.cc lines 48-51):
calls `ApplyOnInsert(item)`. -/
def OnInsert (σ : Type) (h : Hooks σ) (mu : AbslMutex)
    (item : PriorityTableItem) (e : ExtensionState σ) : ExtensionState σ :=
  { e with sub := h.applyOnInsert item e.sub }

/-- `PriorityTableExtensionBase::OnReset` (base.cc line 53):
calls `ApplyOnReset()`. -/
def OnReset (σ : Type) (h : Hooks σ) (mu : AbslMutex)
    (e : ExtensionState σ) : ExtensionState σ :=
  { e with sub := h.applyOnReset e.sub }

/-- `PriorityTableExtensionBase::OnUpdate` (base.cc lines 55-58):
calls `ApplyOnUpdate(item)`. -/
def OnUpdate (σ : Type) (h : Hooks σ) (mu : AbslMutex)
    (item : PriorityTableItem) (e : ExtensionState σ) : ExtensionState σ :=
  { e with sub := h.applyOnUpdate item e.sub }

/-- `PriorityTableExtensionBase::OnSample` (base.cc lines 60-63):
calls `ApplyOnSample(item)`. -/
def OnSample (σ : Type) (h : Hooks σ) (mu : AbslMutex)
    (item : PriorityTableItem) (e : ExtensionState σ) : ExtensionState σ :=
  { e with sub := h.applyOnSample item e.sub }

/-- One hook invocation, recording which `ApplyOn*` method was called and
with which item. -/
inductive HookCall where
  | delete (item : PriorityTableItem) : HookCall
  | insert (item : PriorityTableItem) : HookCall
  | reset : HookCall
  | update (item : PriorityTableItem) : HookCall
  | sample (item : PriorityTableItem) : HookCall
deriving DecidableEq, Repr

/-- An instrumented subclass whose `ApplyOn*` overrides only append a record
of the call (which method, which item) to a log.  Dispatching through
`recorder` makes the number and arguments of hook invocations observable. -/
def recorder : Hooks (List HookCall) where
  applyOnDelete := fun item log => log ++ [HookCall.delete item]
  applyOnInsert := fun item log => log ++ [HookCall.insert item]
  applyOnReset := fun log => log ++ [HookCall.reset]
  applyOnUpdate := fun item log => log ++ [HookCall.update item]
  applyOnSample := fun item log => log ++ [HookCall.sample item]

/-- One call of a dispatch entry point, for replaying sequences. -/
inductive HookEvent where
  | delete (item : PriorityTableItem) : HookEvent
  | insert (item : PriorityTableItem) : HookEvent
  | reset : HookEvent
  | update (item : PriorityTableItem) : HookEvent
  | sample (item : PriorityTableItem) : HookEvent
deriving DecidableEq, Repr

/-- Dispatch one `On*` entry point according to the event. -/
def dispatchEvent (σ : Type) (h : Hooks σ) (mu : AbslMutex)
    (ev : HookEvent) (e : ExtensionState σ) : ExtensionState σ :=
  match ev with
  | HookEvent.delete item => OnDelete σ h mu item e
  | HookEvent.insert item => OnInsert σ h mu item e
  | HookEvent.reset => OnReset σ h mu e
  | HookEvent.update item => OnUpdate σ h mu item e
  | HookEvent.sample item => OnSample σ h mu item e

/-- Replay a sequence of dispatch calls. -/
def runEvents (σ : Type) (h : Hooks σ) (mu : AbslMutex) :
    List HookEvent → ExtensionState σ → ExtensionState σ
  | [], e => e
  | ev :: evs, e => runEvents σ h mu evs (dispatchEvent σ h mu ev e)

/-- One call the table can issue on an extension: `RegisterTable`,
`UnregisterTable`, or one of the dispatch entry points. -/
inductive Cmd where
  | register (t : Option Table) : Cmd
  | unregister (t : Option Table) : Cmd
  | hook (ev : HookEvent) : Cmd
deriving DecidableEq, Repr

/-- Run one command.  `none` means the call did not return normally
(abort in `UnregisterTable`, undefined behaviour in `RegisterTable`);
a failed `RegisterTable` returns normally with the state unchanged. -/
def runCmd (σ : Type) (h : Hooks σ) (mu : AbslMutex) (c : Cmd)
    (e : ExtensionState σ) : Option (ExtensionState σ) :=
  match c with
  | Cmd.register t => (RegisterTable σ t e).map Prod.snd
  | Cmd.unregister t => UnregisterTable σ mu t e
  | Cmd.hook ev => some (dispatchEvent σ h mu ev e)

/-- Run a sequence of commands; `none` as soon as one call fails to
return. -/
def execCmds (σ : Type) (h : Hooks σ) (mu : AbslMutex) :
    List Cmd → ExtensionState σ → Option (ExtensionState σ)
  | [], e => some e
  | c :: cs, e => (runCmd σ h mu c e).bind (execCmds σ h mu cs)

/-- Modelled from the spec: the back-reference dictated by the state
machine of section 4.1 - the table argument of the most recent successful
`Register` (one issued while unbound) that has not been followed by an
`Unregister`; hook calls leave it alone. -/
def specBoundTable (b : Option Table) : List Cmd → Option Table
  | [] => b
  | Cmd.register t :: cs => specBoundTable (if b = none then t else b) cs
  | Cmd.unregister _ :: cs => specBoundTable none cs
  | Cmd.hook _ :: cs => specBoundTable b cs

/-- Does `needle` lead (as a literal prefix) the character list `hay`? -/
def leadsWith : List Char → List Char → Bool
  | [], _ => true
  | _ :: _, [] => false
  | a :: as, b :: bs => a = b && leadsWith as bs

/-- Does `needle` occur contiguously anywhere inside `hay`? -/
def occursIn (needle : List Char) : List Char → Bool
  | [] => leadsWith needle []
  | c :: rest => leadsWith needle (c :: rest) || occursIn needle rest

/-- C1: for every extension state, `RegisterTable` on an already-bound
extension returns a `FailedPrecondition` status and leaves the state (in
particular the `table_` back-reference) unchanged, whatever table is
requested; on an unbound extension it stores the requested table in
`table_` and returns `OK`. -/
theorem registerTable_bound_errors_unbound_binds (σ : Type)
    (e : ExtensionState σ) (t : Table) :
    (∀ b, e.table_ = some b →
      RegisterTable σ (some t) e =
        some (Status.failedPrecondition (registerErrorMsg t b), e)) ∧
    (e.table_ = none →
      RegisterTable σ (some t) e =
        some (Status.ok, { e with table_ := some t })) := by
  constructor
  · intro b hb
    simp [RegisterTable, hb]
  · intro hb
    simp [RegisterTable, hb]

/-- Witness for C1: a bound extension rejects a second registration
unchanged, and an unbound one accepts it. -/
theorem registerTable_bound_errors_unbound_binds_witness :
    RegisterTable Unit (some ⟨2, "beta"⟩) ⟨some ⟨1, "alpha"⟩, ()⟩ =
      some (Status.failedPrecondition
        (registerErrorMsg ⟨2, "beta"⟩ ⟨1, "alpha"⟩), ⟨some ⟨1, "alpha"⟩, ()⟩) ∧
    RegisterTable Unit (some ⟨2, "beta"⟩) ⟨none, ()⟩ =
      some (Status.ok, ⟨some ⟨2, "beta"⟩, ()⟩) :=
  ⟨(registerTable_bound_errors_unbound_binds Unit ⟨some ⟨1, "alpha"⟩, ()⟩
      ⟨2, "beta"⟩).1 ⟨1, "alpha"⟩ rfl,
   (registerTable_bound_errors_unbound_binds Unit ⟨none, ()⟩
      ⟨2, "beta"⟩).2 rfl⟩

/-- C2: `UnregisterTable` with an argument different from the current
binding hits the `REVERB_CHECK_EQ` abort and never returns normally
(modelled as `none`); with the matching argument the abort branch is not
taken and the call returns normally, clearing `table_`. -/
theorem unregisterTable_mismatch_aborts (σ : Type) (mu : AbslMutex)
    (t : Option Table) (e : ExtensionState σ) :
    (t ≠ e.table_ → UnregisterTable σ mu t e = none) ∧
    (t = e.table_ →
      UnregisterTable σ mu t e = some { e with table_ := none }) := by
  constructor
  · intro hne
    simp [UnregisterTable, hne]
  · intro heq
    simp [UnregisterTable, heq]

/-- Witness for C2: unregistering with the wrong table aborts, with the
bound table it returns normally. -/
theorem unregisterTable_mismatch_aborts_witness :
    UnregisterTable Unit ⟨0⟩ (some ⟨2, "beta"⟩) ⟨some ⟨1, "alpha"⟩, ()⟩ =
      none ∧
    UnregisterTable Unit ⟨0⟩ (some ⟨1, "alpha"⟩) ⟨some ⟨1, "alpha"⟩, ()⟩ =
      some ⟨none, ()⟩ :=
  ⟨(unregisterTable_mismatch_aborts Unit ⟨0⟩ (some ⟨2, "beta"⟩)
      ⟨some ⟨1, "alpha"⟩, ()⟩).1 (by decide),
   (unregisterTable_mismatch_aborts Unit ⟨0⟩ (some ⟨1, "alpha"⟩)
      ⟨some ⟨1, "alpha"⟩, ()⟩).2 rfl⟩

/-- C3: starting unbound, `RegisterTable t` succeeds and binds, the
matching `UnregisterTable t` returns normally and clears the
back-reference, and a subsequent `RegisterTable t2` for any table `t2`
succeeds again. -/
theorem register_unregister_roundtrip (σ : Type) (mu : AbslMutex)
    (e : ExtensionState σ) (t t2 : Table) (h : e.table_ = none) :
    RegisterTable σ (some t) e =
      some (Status.ok, { e with table_ := some t }) ∧
    UnregisterTable σ mu (some t) { e with table_ := some t } =
      some { e with table_ := none } ∧
    RegisterTable σ (some t2) { e with table_ := none } =
      some (Status.ok, { e with table_ := some t2 }) := by
  refine ⟨?_, ?_, ?_⟩
  · simp [RegisterTable, h]
  · simp [UnregisterTable]
  · simp [RegisterTable]

/-- Witness for C3: a concrete bind-unbind-rebind cycle. -/
theorem register_unregister_roundtrip_witness :
    RegisterTable Unit (some ⟨1, "alpha"⟩) ⟨none, ()⟩ =
      some (Status.ok, ⟨some ⟨1, "alpha"⟩, ()⟩) ∧
    UnregisterTable Unit ⟨0⟩ (some ⟨1, "alpha"⟩) ⟨some ⟨1, "alpha"⟩, ()⟩ =
      some ⟨none, ()⟩ ∧
    RegisterTable Unit (some ⟨2, "beta"⟩) ⟨none, ()⟩ =
      some (Status.ok, ⟨some ⟨2, "beta"⟩, ()⟩) :=
  register_unregister_roundtrip Unit ⟨0⟩ ⟨none, ()⟩ ⟨1, "alpha"⟩
    ⟨2, "beta"⟩ rfl

/-- C4 (counter-evidence): with the extension bound to the table named
`alpha` and a registration attempt for the table named `beta`, the
error status `RegisterTable` produces renders the requested name `beta`
for both tables - the bound table's own name `alpha` never occurs in the
message, because base.cc line 30 reads `table->name()` instead of
`table_->name()`. -/
theorem registerErrorMsg_omits_bound_name :
    RegisterTable Unit (some ⟨2, "beta"⟩) ⟨some ⟨1, "alpha"⟩, ()⟩ =
      some (Status.failedPrecondition
        (registerErrorMsg ⟨2, "beta"⟩ ⟨1, "alpha"⟩), ⟨some ⟨1, "alpha"⟩, ()⟩) ∧
    occursIn "alpha".toList
      (registerErrorMsg ⟨2, "beta"⟩ ⟨1, "alpha"⟩).toList = false ∧
    occursIn "beta".toList
      (registerErrorMsg ⟨2, "beta"⟩ ⟨1, "alpha"⟩).toList = true := by
  refine ⟨rfl, ?_, ?_⟩ <;> decide

/-- C5: each dispatch entry point invokes exactly the corresponding
`ApplyOn*` hook, exactly once per call, with exactly the item it was
given: dispatching through the call-logging `recorder` subclass appends
exactly one matching record.  Every entry point is a total function into
`ExtensionState` - there is no error result. -/
theorem dispatch_calls_hook_once (mu : AbslMutex) (item : PriorityTableItem)
    (e : ExtensionState (List HookCall)) :
    OnInsert (List HookCall) recorder mu item e =
      { e with sub := e.sub ++ [HookCall.insert item] } ∧
    OnDelete (List HookCall) recorder mu item e =
      { e with sub := e.sub ++ [HookCall.delete item] } ∧
    OnUpdate (List HookCall) recorder mu item e =
      { e with sub := e.sub ++ [HookCall.update item] } ∧
    OnSample (List HookCall) recorder mu item e =
      { e with sub := e.sub ++ [HookCall.sample item] } ∧
    OnReset (List HookCall) recorder mu e =
      { e with sub := e.sub ++ [HookCall.reset] } :=
  ⟨rfl, rfl, rfl, rfl, rfl⟩

/-- C6: with the base-class hook bodies (no overrides), any sequence of
dispatch calls with any items leaves the extension state - back-reference
and subclass state alike - exactly as it was. -/
theorem default_hooks_noop (σ : Type) (mu : AbslMutex)
    (evs : List HookEvent) (e : ExtensionState σ) :
    runEvents σ (defaultHooks σ) mu evs e = e := by
  induction evs generalizing e with
  | nil => rfl
  | cons ev evs ih =>
    have hd : dispatchEvent σ (defaultHooks σ) mu ev e = e := by
      cases ev <;> rfl
    calc runEvents σ (defaultHooks σ) mu (ev :: evs) e
        = runEvents σ (defaultHooks σ) mu evs
            (dispatchEvent σ (defaultHooks σ) mu ev e) := rfl
      _ = runEvents σ (defaultHooks σ) mu evs e := by rw [hd]
      _ = e := ih e

/-- C9: the dispatch entry points check nothing about the binding: on an
unbound extension (`table_ = none`) each still returns normally and
invokes its hook exactly once, as the call log shows. -/
theorem dispatch_ignores_binding (mu : AbslMutex) (item : PriorityTableItem)
    (e : ExtensionState (List HookCall)) (h : e.table_ = none) :
    OnInsert (List HookCall) recorder mu item e =
      { e with sub := e.sub ++ [HookCall.insert item] } ∧
    OnDelete (List HookCall) recorder mu item e =
      { e with sub := e.sub ++ [HookCall.delete item] } ∧
    OnUpdate (List HookCall) recorder mu item e =
      { e with sub := e.sub ++ [HookCall.update item] } ∧
    OnSample (List HookCall) recorder mu item e =
      { e with sub := e.sub ++ [HookCall.sample item] } ∧
    OnReset (List HookCall) recorder mu e =
      { e with sub := e.sub ++ [HookCall.reset] } :=
  ⟨rfl, rfl, rfl, rfl, rfl⟩

/-- Witness for C9: a concrete unbound extension still dispatches. -/
theorem dispatch_ignores_binding_witness :
    OnInsert (List HookCall) recorder ⟨0⟩ ⟨7, 3⟩ ⟨none, []⟩ =
      ⟨none, [HookCall.insert ⟨7, 3⟩]⟩ ∧
    OnDelete (List HookCall) recorder ⟨0⟩ ⟨7, 3⟩ ⟨none, []⟩ =
      ⟨none, [HookCall.delete ⟨7, 3⟩]⟩ ∧
    OnUpdate (List HookCall) recorder ⟨0⟩ ⟨7, 3⟩ ⟨none, []⟩ =
      ⟨none, [HookCall.update ⟨7, 3⟩]⟩ ∧
    OnSample (List HookCall) recorder ⟨0⟩ ⟨7, 3⟩ ⟨none, []⟩ =
      ⟨none, [HookCall.sample ⟨7, 3⟩]⟩ ∧
    OnReset (List HookCall) recorder ⟨0⟩ ⟨none, []⟩ =
      ⟨none, [HookCall.reset]⟩ :=
  dispatch_ignores_binding ⟨0⟩ ⟨7, 3⟩ ⟨none, []⟩ rfl

/-- C10: for every subclass (any `Hooks` record), every item and every
state, each dispatch entry point leaves the `table_` back-reference
unchanged; in this file only `RegisterTable` and `UnregisterTable`
ever write that field. -/
theorem dispatch_preserves_binding (σ : Type) (h : Hooks σ)
    (mu : AbslMutex) (item : PriorityTableItem) (e : ExtensionState σ) :
    (OnInsert σ h mu item e).table_ = e.table_ ∧
    (OnDelete σ h mu item e).table_ = e.table_ ∧
    (OnUpdate σ h mu item e).table_ = e.table_ ∧
    (OnSample σ h mu item e).table_ = e.table_ ∧
    (OnReset σ h mu e).table_ = e.table_ :=
  ⟨rfl, rfl, rfl, rfl, rfl⟩

/-- C8: `RegisterTable` never checks the argument for null: on an unbound
extension a null argument is accepted with `OK`, the back-reference stays
null (the extension is observably still unbound), and a later
registration with any table still succeeds. -/
theorem registerTable_null_unchecked (σ : Type) (e : ExtensionState σ)
    (t2 : Table) (h : e.table_ = none) :
    RegisterTable σ none e = some (Status.ok, { e with table_ := none }) ∧
    ({ e with table_ := (none : Option Table) }).table_ = none ∧
    RegisterTable σ (some t2) { e with table_ := none } =
      some (Status.ok, { e with table_ := some t2 }) := by
  refine ⟨?_, rfl, ?_⟩
  · simp [RegisterTable, h]
  · simp [RegisterTable]

/-- Witness for C8: a concrete null registration on a fresh extension. -/
theorem registerTable_null_unchecked_witness :
    RegisterTable Unit none ⟨none, ()⟩ = some (Status.ok, ⟨none, ()⟩) ∧
    (⟨none, ()⟩ : ExtensionState Unit).table_ = none ∧
    RegisterTable Unit (some ⟨2, "beta"⟩) ⟨none, ()⟩ =
      some (Status.ok, ⟨some ⟨2, "beta"⟩, ()⟩) :=
  registerTable_null_unchecked Unit ⟨none, ()⟩ ⟨2, "beta"⟩ rfl

/-- Auxiliary for C7: along any command sequence whose calls all return
normally, the final back-reference is the one the spec's state machine
computes from the starting back-reference. -/
theorem execCmds_table_eq (σ : Type) (h : Hooks σ) (mu : AbslMutex) :
    ∀ (cs : List Cmd) (e e' : ExtensionState σ),
      execCmds σ h mu cs e = some e' →
      e'.table_ = specBoundTable e.table_ cs := by
  intro cs
  induction cs with
  | nil =>
    intro e e' hrun
    cases hrun
    rfl
  | cons c cs ih =>
    intro e e' hrun
    cases c with
    | register t =>
      rcases hb : e.table_ with _ | b
      · have hstep :
            execCmds σ h mu cs { e with table_ := t } = some e' := by
          simpa [execCmds, runCmd, RegisterTable, hb] using hrun
        simpa [specBoundTable, hb] using ih { e with table_ := t } e' hstep
      · cases t with
        | none =>
          simp [execCmds, runCmd, RegisterTable, hb] at hrun
        | some tt =>
          have hstep : execCmds σ h mu cs e = some e' := by
            simpa [execCmds, runCmd, RegisterTable, hb] using hrun
          simpa [specBoundTable, hb] using ih e e' hstep
    | unregister t =>
      by_cases ht : t = e.table_
      · have hstep :
            execCmds σ h mu cs { e with table_ := none } = some e' := by
          simpa [execCmds, runCmd, UnregisterTable, ht] using hrun
        simpa [specBoundTable] using ih { e with table_ := none } e' hstep
      · simp [execCmds, runCmd, UnregisterTable, ht] at hrun
    | hook ev =>
      have hstep :
          execCmds σ h mu cs (dispatchEvent σ h mu ev e) = some e' := by
        simpa [execCmds, runCmd] using hrun
      have htbl : (dispatchEvent σ h mu ev e).table_ = e.table_ := by
        cases ev <;> rfl
      have := ih (dispatchEvent σ h mu ev e) e' hstep
      rw [htbl] at this
      simpa [specBoundTable] using this

/-- C7: in every state reached from the initial unbound state by a
sequence of register, unregister and hook calls that all return
normally, the back-reference holds at most one table and equals the
argument of the most recent successful registration not yet undone by an
unregistration, as computed by the spec-level state machine
`specBoundTable`. -/
theorem reachable_binding_matches_history (σ : Type) (h : Hooks σ)
    (mu : AbslMutex) (s0 : σ) (cs : List Cmd) (e : ExtensionState σ)
    (hrun : execCmds σ h mu cs ⟨none, s0⟩ = some e) :
    e.table_ = specBoundTable none cs ∧
    ∀ t1 t2, e.table_ = some t1 → e.table_ = some t2 → t1 = t2 := by
  refine ⟨execCmds_table_eq σ h mu cs ⟨none, s0⟩ e hrun, ?_⟩
  intro t1 t2 h1 h2
  rw [h1] at h2
  exact Option.some_injective Table h2

/-- Witness for C7: a concrete bind, hook, unbind, rebind history. -/
theorem reachable_binding_matches_history_witness :
    (⟨some ⟨2, "beta"⟩, ()⟩ : ExtensionState Unit).table_ =
      specBoundTable none
        [Cmd.register (some ⟨1, "alpha"⟩), Cmd.hook (HookEvent.insert ⟨7, 3⟩),
          Cmd.unregister (some ⟨1, "alpha"⟩),
          Cmd.register (some ⟨2, "beta"⟩)] ∧
    ∀ t1 t2, (⟨some ⟨2, "beta"⟩, ()⟩ : ExtensionState Unit).table_ = some t1 →
      (⟨some ⟨2, "beta"⟩, ()⟩ : ExtensionState Unit).table_ = some t2 →
      t1 = t2 :=
  reachable_binding_matches_history Unit (defaultHooks Unit) ⟨0⟩ ()
    [Cmd.register (some ⟨1, "alpha"⟩), Cmd.hook (HookEvent.insert ⟨7, 3⟩),
      Cmd.unregister (some ⟨1, "alpha"⟩), Cmd.register (some ⟨2, "beta"⟩)]
    ⟨some ⟨2, "beta"⟩, ()⟩ rfl
